import Mathlib

/-!
# Verification of the zebra-client request pipeline

A shallow embedding of the request execution pipeline of the
`@irly-tech/zebra-client` library (`ZebraClient.request` together with
`ZebraError.fromResponse` and the telemetry contract), with theorems about
its retry, classification and telemetry behaviour.

Modelling conventions:
* JavaScript numbers used for delays are modelled as exact rationals `ℚ`.
* `JSON.parse` is a platform primitive; it is a parameter
  `parse : String → Except String Json` of the pipeline (the `String` of the
  `.error` case is the message of the thrown `SyntaxError`).
* `parseInt(s, 10)` is embedded as `jsParseInt`; the JavaScript `NaN` result
  is modelled as `Option.none`.
* The injected transport (`config.fetch`, already applied to the URL and
  headers, which no claim depends on) is a function from the attempt index
  to the outcome of that attempt: either a thrown transport error or a `Response`.
* Real time is outside the model: `Date.now()` is taken as constant, so every
  `duration` field is `0`.
* Telemetry callbacks and the backoff sleep are observable effects; a run
  records them in order as a list of `TelemetryEvent`s.  The number of
  `fetch` invocations and whether the `while` loop exited by exhausting its
  budget are also recorded.
-/

/-- Abstract JSON values, the results of the platform function `JSON.parse`. -/
inductive Json where
  | null : Json
  | bool (b : Bool) : Json
  | num (n : Int) : Json
  | str (s : String) : Json
  | arr (elems : List Json) : Json
  | obj (fields : List (String × Json)) : Json

/-- The platform function `JSON.parse`: either the parsed value or the
message of the thrown `SyntaxError`. -/
def JsonParse : Type := String → Except String Json

/-- What `response.text()` does on a given response: either it throws (with
some message) or it yields the body text. -/
inductive BodyRead where
  | readFail (msg : String) : BodyRead
  | readOk (text : String) : BodyRead
deriving DecidableEq, Repr

/-- The parts of a fetch `Response` the pipeline inspects: `status`,
`statusText`, the `retry-after` header (`none` when absent) and the
single-consumption body. -/
structure Response where
  status : Nat
  statusText : String
  retryAfterHeader : Option String
  body : BodyRead
deriving DecidableEq, Repr

/-- Embedding of `response.ok`: status in the range [200, 300). -/
def Response.ok (r : Response) : Bool :=
  decide (200 ≤ r.status) && decide (r.status < 300)

/-- Outcome of one call of the injected transport: either the returned
`Response` or a thrown transport-level error (network failure, timeout). -/
inductive FetchOutcome where
  | transportError (msg : String) : FetchOutcome
  | response (r : Response) : FetchOutcome
deriving DecidableEq, Repr

/-- The `responseBody` of a `ZebraError`: a parsed JSON value or raw text
(`Option` around it models the `undefined` case). -/
inductive ZebraErrorBody where
  | jsonVal (v : Json) : ZebraErrorBody
  | textVal (s : String) : ZebraErrorBody

/-- The typed failure `ZebraError` (client-types.ts): message, optional
status code, optional raw response handle, optional parsed body. -/
structure ZebraError where
  message : String
  statusCode : Option Nat
  response : Option Response
  responseBody : Option ZebraErrorBody

/-- A JavaScript error value as the pipeline sees it: either a `ZebraError`
(the `instanceof ZebraError` branch) or any other `Error`, kept as its
message. -/
inductive JsError where
  | zebra (e : ZebraError) : JsError
  | plain (msg : String) : JsError

/-- The `error.message` of a JavaScript error value. -/
def JsError.message : JsError → String
  | .zebra e => e.message
  | .plain msg => msg

/-- Embedding of `(lastError as ZebraError).statusCode || 0`: a plain error has no
`statusCode` property (`undefined || 0` is `0`). -/
def JsError.statusCodeOr0 : JsError → Nat
  | .zebra e => e.statusCode.getD 0
  | .plain _ => 0

/-- Embedding of `(lastError as ZebraError).statusCode === 429`. -/
def JsError.is429 : JsError → Bool
  | .zebra e => e.statusCode == some 429
  | .plain _ => false

/-- Embedding of the retry reason, `lastError?.message` with fallback
"Unknown error" (an empty message string is falsy in JavaScript). -/
def jsErrorReason : Option JsError → String
  | none => "Unknown error"
  | some e => if e.message = "" then "Unknown error" else e.message

/-- The `RequestResult` record handed to `onRequestEnd`
(telemetry/types.ts). -/
structure RequestResult where
  statusCode : Nat
  success : Bool
  error : Option JsError
  duration : Nat
  rateLimited : Bool
  retryCount : Nat

/-- One observable telemetry/scheduling effect of the pipeline, in the order
it happens.  `sleep` records the backoff pause (`setTimeout`) together with
the attempt number it precedes; `rateLimit` carries the `parseInt`-ed
`retry-after` value (`none` = `NaN`). -/
inductive TelemetryEvent where
  | start : TelemetryEvent
  | retry (attempt : Nat) (reason : String) : TelemetryEvent
  | sleep (attempt : Nat) (delayMs : ℚ) : TelemetryEvent
  | rateLimit (retryAfter : Option Int) : TelemetryEvent
  | requestEnd (result : RequestResult) : TelemetryEvent

/-- How one `request` call finishes: return the parsed payload (`none` is
JavaScript `null`) or throw an error. -/
inductive Outcome where
  | ok (payload : Option Json) : Outcome
  | thrown (e : JsError) : Outcome

/-- A complete observable run of `ZebraClient.request`: the telemetry/sleep
trace, the final outcome, the number of transport invocations made, and
whether the `while` loop exited by exhausting the attempt budget. -/
structure RunOutput where
  events : List TelemetryEvent
  outcome : Outcome
  attempts : Nat
  exhausted : Bool

/-- The resolved retry configuration (`InternalConfig.retry`). -/
structure RetryConfig where
  maxRetries : Nat
  initialDelayMs : ℚ
  maxDelayMs : ℚ
  backoffMultiplier : ℚ
deriving DecidableEq

/-- Whitespace skipped by the JavaScript function `parseInt`. -/
def isJsWhitespace (c : Char) : Bool :=
  c == ' ' || c == '\t' || c == '\n' || c == '\r'

/-- Value of a maximal leading run of decimal digits; `none` when there is
no leading digit. -/
def leadingDigitsVal (cs : List Char) : Option Nat :=
  let ds := cs.takeWhile Char.isDigit
  if ds.isEmpty then none
  else some (ds.foldl (fun acc c => acc * 10 + (c.toNat - '0'.toNat)) 0)

/-- The JavaScript call `parseInt(s, 10)`: skip leading whitespace, optional sign,
then the maximal run of decimal digits; `none` models the `NaN` result when
no digit is found. -/
def jsParseInt (s : String) : Option Int :=
  match s.toList.dropWhile isJsWhitespace with
  | '-' :: rest => (leadingDigitsVal rest).map (fun n => -(n : Int))
  | '+' :: rest => (leadingDigitsVal rest).map (fun n => (n : Int))
  | rest => (leadingDigitsVal rest).map (fun n => (n : Int))

/-- Embedding of the retry-after extraction: `parseInt` base 10 of the
retry-after header; an absent header is `null` and an empty header value is
falsy, so both fall back to the text "0". -/
def jsRetryAfter (r : Response) : Option Int :=
  jsParseInt (match r.retryAfterHeader with
    | none => "0"
    | some s => if s = "" then "0" else s)

/-- Embedding of `ZebraError.fromResponse(message, response)` (client-types.ts): read the
body once; a non-empty text that parses as JSON becomes the parsed value, a
non-empty text that does not parse stays as raw text, an empty or unreadable
body leaves `responseBody` unset.  The construction itself never throws.
The second component counts how many times `response.text()` was invoked. -/
def ZebraError.fromResponse (parse : JsonParse) (message : String) (r : Response) :
    ZebraError × Nat :=
  let responseBody : Option ZebraErrorBody :=
    match r.body with
    | .readFail _ => none
    | .readOk text =>
      if text = "" then none
      else
        match parse text with
        | .ok v => some (.jsonVal v)
        | .error _ => some (.textVal text)
  ({ message := message
     statusCode := some r.status
     response := some r
     responseBody := responseBody }, 1)

/-- The `RequestResult` built on the `response.ok` branch of an attempt. -/
def okResult (r : Response) (attempt : Nat) : RequestResult :=
  { statusCode := r.status
    success := true
    error := none
    duration := 0
    rateLimited := false
    retryCount := attempt }

/-- The `RequestResult` built after the `while` loop exhausts its budget,
with `attempt` the value of the loop counter at exit. -/
def exhaustResult (e : JsError) (attempt : Nat) : RequestResult :=
  { statusCode := e.statusCodeOr0
    success := false
    error := some e
    duration := 0
    rateLimited := e.is429
    retryCount := attempt - 1 }

/-- The backoff delay slept before retry attempt `attempt`:
`Math.min(initialDelayMs * backoffMultiplier ** (attempt - 1), maxDelayMs)`. -/
def backoffDelay (cfg : RetryConfig) (attempt : Nat) : ℚ :=
  min (cfg.initialDelayMs * cfg.backoffMultiplier ^ (attempt - 1)) cfg.maxDelayMs

/-- Whether an `Outcome` is a throw. -/
def Outcome.isThrown : Outcome → Bool
  | .ok _ => false
  | .thrown _ => true

/-- Result of the `try { ... } catch { ... }` body of one loop iteration:
either the pipeline finishes now (`done`: a `return` or an escaping
re-`throw`), or the loop continues with a new `lastError` (`next`).  Either
way `events` are the effects the iteration emitted after any backoff. -/
inductive StepResult where
  | done (events : List TelemetryEvent) (outcome : Outcome) : StepResult
  | next (events : List TelemetryEvent) (err : JsError) : StepResult

/-- Classification of one attempt (`client.ts` lines 102–158), given the
outcome of the transport call for this attempt:
* transport throw → caught, wrapped as the new `lastError`, loop continues;
* `response.ok` → emit `onRequestEnd` (success), then return `null` for 204
  or an empty body, return the parsed JSON, or — if `response.text()` or
  `JSON.parse` throws — catch it as the new `lastError` and continue;
* 429 → emit `onRateLimitHit`, build the typed failure, always continue;
* other non-ok → build the typed failure; below 500 it is re-thrown out of
  the pipeline (`throw lastError` caught by `instanceof ZebraError`),
  at/above 500 the loop continues. -/
def attemptStep (parse : JsonParse) (attempt : Nat) : FetchOutcome → StepResult
  | .transportError msg => .next [] (.plain msg)
  | .response r =>
    if r.ok then
      let result := okResult r attempt
      if r.status == 204 then
        .done [.requestEnd result] (.ok none)
      else
        match r.body with
        | .readFail msg => .next [.requestEnd result] (.plain msg)
        | .readOk text =>
          if text = "" then
            .done [.requestEnd result] (.ok none)
          else
            match parse text with
            | .ok v => .done [.requestEnd result] (.ok (some v))
            | .error msg => .next [.requestEnd result] (.plain msg)
    else if r.status == 429 then
      .next [.rateLimit (jsRetryAfter r)]
        (.zebra (ZebraError.fromResponse parse "Rate limit exceeded" r).1)
    else
      let e := (ZebraError.fromResponse parse ("Zebra API error: " ++ r.statusText) r).1
      if r.status < 500 then
        .done [] (.thrown (.zebra e))
      else
        .next [] (.zebra e)

/-- The effects of the `if (attempt > 0)` prologue of a loop iteration:
on a retry, `onRetry` fires with the attempt number and the reason derived
from the previous failure, then the backoff delay is slept. -/
def preEvents (cfg : RetryConfig) (attempt : Nat) (lastError : Option JsError) :
    List TelemetryEvent :=
  if 0 < attempt then
    [.retry attempt (jsErrorReason lastError),
     .sleep attempt (backoffDelay cfg attempt)]
  else []

/-- The `while (attempt <= maxRetries)` loop of `ZebraClient.request`,
by recursion on the remaining iteration budget `fuel`
(`fuel = maxRetries + 1 - attempt`).  When the budget is exhausted the final
`RequestResult` is built and `onRequestEnd` fires, then `lastError` is
thrown.  The unreachable `lastError === undefined` exit (the loop body runs
at least once) would crash in JavaScript before reaching `onRequestEnd`; it
is modelled as a thrown `TypeError` with no events. -/
def runAttempts (cfg : RetryConfig) (fetch : Nat → FetchOutcome) (parse : JsonParse) :
    Nat → Nat → Option JsError → RunOutput
  | 0, attempt, lastError =>
    match lastError with
    | some e =>
      { events := [.requestEnd (exhaustResult e attempt)]
        outcome := .thrown e
        attempts := 0
        exhausted := true }
    | none =>
      { events := []
        outcome := .thrown (.plain "TypeError: Cannot read properties of undefined")
        attempts := 0
        exhausted := false }
  | fuel + 1, attempt, lastError =>
    let pre : List TelemetryEvent := preEvents cfg attempt lastError
    match attemptStep parse attempt (fetch attempt) with
    | .done evs outcome =>
      { events := pre ++ evs
        outcome := outcome
        attempts := 1
        exhausted := false }
    | .next evs e =>
      let rest := runAttempts cfg fetch parse fuel (attempt + 1) (some e)
      { events := pre ++ evs ++ rest.events
        outcome := rest.outcome
        attempts := rest.attempts + 1
        exhausted := rest.exhausted }

namespace ZebraClient

/-- Embedding of `ZebraClient.request` (client.ts): fire `onRequestStart` once, before the
first transport call, then run the attempt loop from `attempt = 0` with
`lastError` undefined and a budget of `maxRetries + 1` iterations. -/
def request (cfg : RetryConfig) (fetch : Nat → FetchOutcome) (parse : JsonParse) :
    RunOutput :=
  let run := runAttempts cfg fetch parse (cfg.maxRetries + 1) 0 none
  { run with events := TelemetryEvent.start :: run.events }

end ZebraClient

/-- Count of `start` events in a trace. -/
def countStart : List TelemetryEvent → Nat
  | [] => 0
  | .start :: es => countStart es + 1
  | _ :: es => countStart es

/-- Count of `requestEnd` events in a trace. -/
def countEnd : List TelemetryEvent → Nat
  | [] => 0
  | .requestEnd _ :: es => countEnd es + 1
  | _ :: es => countEnd es

/-- Count of `retry` events in a trace. -/
def countRetry : List TelemetryEvent → Nat
  | [] => 0
  | .retry _ _ :: es => countRetry es + 1
  | _ :: es => countRetry es

/-- Count of `sleep` (backoff pause) events in a trace. -/
def countSleep : List TelemetryEvent → Nat
  | [] => 0
  | .sleep _ _ :: es => countSleep es + 1
  | _ :: es => countSleep es

/-- Count of `rateLimit` events in a trace. -/
def countRateLimit : List TelemetryEvent → Nat
  | [] => 0
  | .rateLimit _ :: es => countRateLimit es + 1
  | _ :: es => countRateLimit es

/-- The `RequestResult`s passed to `onRequestEnd`, in order. -/
def endResults (es : List TelemetryEvent) : List RequestResult :=
  es.filterMap fun e => match e with | .requestEnd r => some r | _ => none

/-- The values passed to `onRateLimitHit`, in order. -/
def rateLimitValues (es : List TelemetryEvent) : List (Option Int) :=
  es.filterMap fun e => match e with | .rateLimit v => some v | _ => none

/-- Whether a transport outcome is a response with an ok (2xx) status. -/
def isOkOutcome : FetchOutcome → Bool
  | .response r => r.ok
  | .transportError _ => false

/-- Number of ok (2xx) responses among attempts `first, …, first + n - 1`. -/
def numOkResponses (fetch : Nat → FetchOutcome) : Nat → Nat → Nat
  | _, 0 => 0
  | first, n + 1 =>
    (if isOkOutcome (fetch first) then 1 else 0) + numOkResponses fetch (first + 1) n

/-- The events emitted by one attempt body, whichever way it exits. -/
def StepResult.events : StepResult → List TelemetryEvent
  | .done evs _ => evs
  | .next evs _ => evs

/-- Whether a transport outcome is a non-ok response with status 429. -/
def is429Outcome : FetchOutcome → Bool
  | .response r => !r.ok && (r.status == 429)
  | .transportError _ => false


/-! ## Concrete fixtures for witnesses and counterexamples -/

/-- A transport that returns the same outcome on every attempt. -/
def fetchConst (o : FetchOutcome) : Nat → FetchOutcome := fun _ => o

/-- A concrete stand-in for `JSON.parse` recognising the two JSON bodies the
fixtures use; everything else is a syntax error. -/
def parseW : JsonParse := fun s =>
  if s = "\x7b\"ok\":true\x7d" then .ok (.obj [("ok", .bool true)])
  else if s = "\x7b\"error\":\"Not Found\"\x7d" then
    .ok (.obj [("error", .str "Not Found")])
  else .error "Unexpected token"

/-- Default retry policy: 3 retries, 1000 ms initial delay, 30000 ms cap,
multiplier 2. -/
def cfg3 : RetryConfig :=
  { maxRetries := 3, initialDelayMs := 1000, maxDelayMs := 30000, backoffMultiplier := 2 }

/-- One retry allowed. -/
def cfg1 : RetryConfig :=
  { maxRetries := 1, initialDelayMs := 1000, maxDelayMs := 30000, backoffMultiplier := 2 }

/-- No retries allowed. -/
def cfg0 : RetryConfig :=
  { maxRetries := 0, initialDelayMs := 1000, maxDelayMs := 30000, backoffMultiplier := 2 }

/-- Multiplier-1 policy with a 5 ms initial delay. -/
def cfgM1 : RetryConfig :=
  { maxRetries := 2, initialDelayMs := 5, maxDelayMs := 30000, backoffMultiplier := 1 }

/-- A 404 response with a plain-text body. -/
def r404W : Response :=
  { status := 404, statusText := "Not Found", retryAfterHeader := none,
    body := .readOk "\x7b\"error\":\"Not Found\"\x7d" }

/-- A 429 response whose retry-after header is not a number. -/
def r429W : Response :=
  { status := 429, statusText := "Too Many Requests", retryAfterHeader := some "abc",
    body := .readOk "limited" }

/-- A 429 response with retry-after 7. -/
def r429n7W : Response :=
  { status := 429, statusText := "Too Many Requests", retryAfterHeader := some "7",
    body := .readOk "limited" }

/-- A 200 response with a JSON body. -/
def r200W : Response :=
  { status := 200, statusText := "OK", retryAfterHeader := none,
    body := .readOk "\x7b\"ok\":true\x7d" }

/-- A 500 response. -/
def r500W : Response :=
  { status := 500, statusText := "Internal Server Error", retryAfterHeader := none,
    body := .readOk "boom" }

/-- A 200 response whose non-empty body is not valid JSON. -/
def rBadW : Response :=
  { status := 200, statusText := "OK", retryAfterHeader := none,
    body := .readOk "oops" }

/-- A transport returning 429 on the first attempt and 200 afterwards. -/
def fetch429then200 : Nat → FetchOutcome := fun i =>
  if i = 0 then .response r429W else .response r200W

/-! ## Basic trace-accounting lemmas -/

theorem countStart_append (l₁ l₂ : List TelemetryEvent) :
    countStart (l₁ ++ l₂) = countStart l₁ + countStart l₂ := by
  induction l₁ with
  | nil => simp [countStart]
  | cons e es ih => cases e <;> simp [countStart, ih] <;> omega

theorem countEnd_append (l₁ l₂ : List TelemetryEvent) :
    countEnd (l₁ ++ l₂) = countEnd l₁ + countEnd l₂ := by
  induction l₁ with
  | nil => simp [countEnd]
  | cons e es ih => cases e <;> simp [countEnd, ih] <;> omega

theorem countRetry_append (l₁ l₂ : List TelemetryEvent) :
    countRetry (l₁ ++ l₂) = countRetry l₁ + countRetry l₂ := by
  induction l₁ with
  | nil => simp [countRetry]
  | cons e es ih => cases e <;> simp [countRetry, ih] <;> omega

theorem countSleep_append (l₁ l₂ : List TelemetryEvent) :
    countSleep (l₁ ++ l₂) = countSleep l₁ + countSleep l₂ := by
  induction l₁ with
  | nil => simp [countSleep]
  | cons e es ih => cases e <;> simp [countSleep, ih] <;> omega

theorem countRateLimit_append (l₁ l₂ : List TelemetryEvent) :
    countRateLimit (l₁ ++ l₂) = countRateLimit l₁ + countRateLimit l₂ := by
  induction l₁ with
  | nil => simp [countRateLimit]
  | cons e es ih => cases e <;> simp [countRateLimit, ih] <;> omega

/-! ## Classification of a single attempt body -/

/-- Shape of the events one attempt body emits: a 2xx response emits exactly
the success `onRequestEnd`; a non-ok 429 emits exactly the `onRateLimitHit`;
everything else emits nothing. -/
theorem stepEvents_shape (p : JsonParse) (a : Nat) (o : FetchOutcome) :
    if isOkOutcome o then
      ∃ r, o = .response r ∧ (attemptStep p a o).events = [.requestEnd (okResult r a)]
    else if is429Outcome o then
      ∃ r, o = .response r ∧ (attemptStep p a o).events = [.rateLimit (jsRetryAfter r)]
    else (attemptStep p a o).events = [] := by
  rcases o with m | r
  · simp [isOkOutcome, is429Outcome, attemptStep, StepResult.events]
  · simp only [isOkOutcome, is429Outcome]
    by_cases hok : r.ok
    · simp only [hok, if_true]
      refine ⟨r, rfl, ?_⟩
      by_cases h204 : r.status = 204
      · simp [attemptStep, hok, h204, StepResult.events]
      · rcases hb : r.body with msg | text
        · simp [attemptStep, hok, h204, hb, StepResult.events]
        · by_cases ht : text = ""
          · simp [attemptStep, hok, h204, hb, ht, StepResult.events]
          · rcases hp : p text with msg | v <;>
              simp [attemptStep, hok, h204, hb, ht, hp, StepResult.events]
    · have hok' : r.ok = false := by revert hok; cases r.ok <;> simp
      by_cases h429 : r.status = 429
      · have h429b : (!r.ok && (r.status == 429)) = true := by simp [hok', h429]
        rw [if_neg hok, if_pos h429b]
        refine ⟨r, rfl, ?_⟩
        simp [attemptStep, hok', h429, StepResult.events]
      · have h429b : ¬((!r.ok && (r.status == 429)) = true) := by simp [hok', h429]
        rw [if_neg hok, if_neg h429b]
        by_cases h500 : r.status < 500 <;>
          simp [attemptStep, hok', h429, h500, StepResult.events]

theorem stepEvents_countStart (p : JsonParse) (a : Nat) (o : FetchOutcome) :
    countStart (attemptStep p a o).events = 0 := by
  have h := stepEvents_shape p a o
  split at h
  · obtain ⟨r, -, he⟩ := h; simp [he, countStart]
  · split at h
    · obtain ⟨r, -, he⟩ := h; simp [he, countStart]
    · simp [h, countStart]

theorem stepEvents_countRetry (p : JsonParse) (a : Nat) (o : FetchOutcome) :
    countRetry (attemptStep p a o).events = 0 := by
  have h := stepEvents_shape p a o
  split at h
  · obtain ⟨r, -, he⟩ := h; simp [he, countRetry]
  · split at h
    · obtain ⟨r, -, he⟩ := h; simp [he, countRetry]
    · simp [h, countRetry]

theorem stepEvents_countSleep (p : JsonParse) (a : Nat) (o : FetchOutcome) :
    countSleep (attemptStep p a o).events = 0 := by
  have h := stepEvents_shape p a o
  split at h
  · obtain ⟨r, -, he⟩ := h; simp [he, countSleep]
  · split at h
    · obtain ⟨r, -, he⟩ := h; simp [he, countSleep]
    · simp [h, countSleep]

theorem stepEvents_no_sleep (p : JsonParse) (a : Nat) (o : FetchOutcome)
    (k : Nat) (d : ℚ) : TelemetryEvent.sleep k d ∉ (attemptStep p a o).events := by
  have h := stepEvents_shape p a o
  split at h
  · obtain ⟨r, -, he⟩ := h; simp [he]
  · split at h
    · obtain ⟨r, -, he⟩ := h; simp [he]
    · simp [h]

theorem stepEvents_countEnd (p : JsonParse) (a : Nat) (o : FetchOutcome) :
    countEnd (attemptStep p a o).events = if isOkOutcome o then 1 else 0 := by
  have h := stepEvents_shape p a o
  split at h
  · next hcase =>
    obtain ⟨r, -, he⟩ := h; simp [he, countEnd, hcase]
  · next hcase =>
    split at h
    · obtain ⟨r, -, he⟩ := h; simp [he, countEnd, hcase]
    · simp [h, countEnd, hcase]

theorem stepEvents_countRateLimit (p : JsonParse) (a : Nat) (o : FetchOutcome) :
    countRateLimit (attemptStep p a o).events = if is429Outcome o then 1 else 0 := by
  have h := stepEvents_shape p a o
  split at h
  · next hcase =>
    obtain ⟨r, -, he⟩ := h
    have : is429Outcome o = false := by
      rcases o with m | r' <;> simp_all [isOkOutcome, is429Outcome]
    simp [he, countRateLimit, this]
  · next hcase =>
    split at h
    · next hcase2 =>
      obtain ⟨r, -, he⟩ := h; simp [he, countRateLimit, hcase2]
    · next hcase2 =>
      simp [h, countRateLimit, hcase2]

theorem stepEvents_endResults_rateLimited (p : JsonParse) (a : Nat) (o : FetchOutcome)
    (res : RequestResult) (hmem : res ∈ endResults (attemptStep p a o).events) :
    res.rateLimited = false := by
  have h := stepEvents_shape p a o
  split at h
  · obtain ⟨r, -, he⟩ := h
    rw [he] at hmem
    simp [endResults] at hmem
    simp [hmem, okResult]
  · split at h
    · obtain ⟨r, -, he⟩ := h
      rw [he] at hmem
      simp [endResults] at hmem
    · rw [h] at hmem
      simp [endResults] at hmem

theorem countStart_pre (cfg : RetryConfig) (a : Nat) (le : Option JsError) :
    countStart (preEvents cfg a le) = 0 := by
  unfold preEvents; split <;> simp [countStart]

theorem countEnd_pre (cfg : RetryConfig) (a : Nat) (le : Option JsError) :
    countEnd (preEvents cfg a le) = 0 := by
  unfold preEvents; split <;> simp [countEnd]

theorem countRateLimit_pre (cfg : RetryConfig) (a : Nat) (le : Option JsError) :
    countRateLimit (preEvents cfg a le) = 0 := by
  unfold preEvents; split <;> simp [countRateLimit]

theorem sleep_mem_pre (cfg : RetryConfig) (a : Nat) (le : Option JsError)
    (k : Nat) (d : ℚ) (h : TelemetryEvent.sleep k d ∈ preEvents cfg a le) :
    d = backoffDelay cfg k := by
  unfold preEvents at h
  split at h
  · simp only [List.mem_cons, List.not_mem_nil, or_false] at h
    rcases h with h | h
    · exact absurd h (by simp)
    · injection h with hk hd
      subst hk
      exact hd
  · cases h

theorem endResults_pre (cfg : RetryConfig) (a : Nat) (le : Option JsError) :
    endResults (preEvents cfg a le) = [] := by
  unfold preEvents; split <;> simp [endResults]

/-! ## Invariants of the attempt loop -/

theorem runAttempts_countStart (cfg : RetryConfig) (f : Nat → FetchOutcome)
    (p : JsonParse) :
    ∀ fuel a le, countStart (runAttempts cfg f p fuel a le).events = 0 := by
  intro fuel
  induction fuel with
  | zero =>
    intro a le
    cases le <;> simp [runAttempts, countStart]
  | succ n ih =>
    intro a le
    simp only [runAttempts]
    cases hstep : attemptStep p a (f a) with
    | done evs out =>
      have hevs : (attemptStep p a (f a)).events = evs := by rw [hstep]; rfl
      have h1 := stepEvents_countStart p a (f a)
      rw [hevs] at h1
      simp [countStart_append, h1, countStart_pre]
    | next evs e =>
      have hevs : (attemptStep p a (f a)).events = evs := by rw [hstep]; rfl
      have h1 := stepEvents_countStart p a (f a)
      rw [hevs] at h1
      simp [countStart_append, h1, countStart_pre, ih]

theorem runAttempts_countEnd (cfg : RetryConfig) (f : Nat → FetchOutcome)
    (p : JsonParse) :
    ∀ fuel a le,
      countEnd (runAttempts cfg f p fuel a le).events =
        numOkResponses f a (runAttempts cfg f p fuel a le).attempts +
          (if (runAttempts cfg f p fuel a le).exhausted then 1 else 0) := by
  intro fuel
  induction fuel with
  | zero =>
    intro a le
    cases le <;> simp [runAttempts, countEnd, numOkResponses]
  | succ n ih =>
    intro a le
    cases hstep : attemptStep p a (f a) with
    | done evs out =>
      have hevs : (attemptStep p a (f a)).events = evs := by rw [hstep]; rfl
      have h1 := stepEvents_countEnd p a (f a)
      rw [hevs] at h1
      simp [runAttempts, hstep, countEnd_append, h1, countEnd_pre, numOkResponses]
    | next evs e =>
      have hevs : (attemptStep p a (f a)).events = evs := by rw [hstep]; rfl
      have h1 := stepEvents_countEnd p a (f a)
      rw [hevs] at h1
      simp only [runAttempts, hstep, countEnd_append, h1, countEnd_pre,
        numOkResponses, ih]
      omega

theorem runAttempts_sleep_mem (cfg : RetryConfig) (f : Nat → FetchOutcome)
    (p : JsonParse) :
    ∀ fuel a le k d,
      TelemetryEvent.sleep k d ∈ (runAttempts cfg f p fuel a le).events →
        d = backoffDelay cfg k := by
  intro fuel
  induction fuel with
  | zero =>
    intro a le k d h
    cases le <;> simp [runAttempts] at h
  | succ n ih =>
    intro a le k d h
    cases hstep : attemptStep p a (f a) with
    | done evs out =>
      simp only [runAttempts, hstep] at h
      simp only [List.mem_append] at h
      rcases h with h | h
      · exact sleep_mem_pre cfg a le k d h
      · have hevs : (attemptStep p a (f a)).events = evs := by rw [hstep]; rfl
        exact absurd (hevs ▸ h) (stepEvents_no_sleep p a (f a) k d)
    | next evs e =>
      simp only [runAttempts, hstep] at h
      simp only [List.mem_append] at h
      rcases h with (h | h) | h
      · exact sleep_mem_pre cfg a le k d h
      · have hevs : (attemptStep p a (f a)).events = evs := by rw [hstep]; rfl
        exact absurd (hevs ▸ h) (stepEvents_no_sleep p a (f a) k d)
      · exact ih (a + 1) (some e) k d h

theorem runAttempts_exhaust (cfg : RetryConfig) (f : Nat → FetchOutcome)
    (p : JsonParse) :
    ∀ fuel a le,
      (runAttempts cfg f p fuel a le).exhausted = true →
        ∃ e, (runAttempts cfg f p fuel a le).outcome = .thrown e ∧
          (runAttempts cfg f p fuel a le).events.getLast? =
            some (.requestEnd (exhaustResult e (a + fuel))) := by
  intro fuel
  induction fuel with
  | zero =>
    intro a le hx
    cases le with
    | none => simp [runAttempts] at hx
    | some e => exact ⟨e, by simp [runAttempts]⟩
  | succ n ih =>
    intro a le hx
    cases hstep : attemptStep p a (f a) with
    | done evs out =>
      simp [runAttempts, hstep] at hx
    | next evs e =>
      simp only [runAttempts, hstep] at hx ⊢
      obtain ⟨e', hout, hlast⟩ := ih (a + 1) (some e) hx
      refine ⟨e', hout, ?_⟩
      have hne : (runAttempts cfg f p n (a + 1) (some e)).events ≠ [] := by
        intro hnil
        rw [hnil] at hlast
        simp at hlast
      rw [List.getLast?_append_of_ne_nil _ hne, hlast]
      have : a + 1 + n = a + (n + 1) := by omega
      rw [this]

theorem runAttempts_success_end (cfg : RetryConfig) (f : Nat → FetchOutcome)
    (p : JsonParse) :
    ∀ fuel a le res,
      res ∈ endResults (runAttempts cfg f p fuel a le).events →
        res.success = true → res.rateLimited = false := by
  intro fuel
  induction fuel with
  | zero =>
    intro a le res hmem hs
    cases le with
    | none => simp [runAttempts, endResults] at hmem
    | some e =>
      simp [runAttempts, endResults] at hmem
      rw [hmem] at hs
      simp [exhaustResult] at hs
  | succ n ih =>
    intro a le res hmem hs
    cases hstep : attemptStep p a (f a) with
    | done evs out =>
      have hevs : (attemptStep p a (f a)).events = evs := by rw [hstep]; rfl
      simp only [runAttempts, hstep, endResults, List.filterMap_append] at hmem
      rw [List.mem_append] at hmem
      rcases hmem with h | h
      · rw [show (List.filterMap _ (preEvents cfg a le) : List RequestResult)
            = endResults (preEvents cfg a le) from rfl, endResults_pre] at h
        cases h
      · exact stepEvents_endResults_rateLimited p a (f a) res (hevs ▸ h)
    | next evs e =>
      have hevs : (attemptStep p a (f a)).events = evs := by rw [hstep]; rfl
      simp only [runAttempts, hstep, endResults, List.filterMap_append] at hmem
      rw [List.mem_append, List.mem_append] at hmem
      rcases hmem with (h | h) | h
      · rw [show (List.filterMap _ (preEvents cfg a le) : List RequestResult)
            = endResults (preEvents cfg a le) from rfl, endResults_pre] at h
        cases h
      · exact stepEvents_endResults_rateLimited p a (f a) res (hevs ▸ h)
      · exact ih (a + 1) (some e) res h hs

theorem runAttempts_all429 (cfg : RetryConfig) (f : Nat → FetchOutcome)
    (p : JsonParse) :
    ∀ fuel a le,
      (∀ i, a ≤ i → i < a + fuel → ∃ r, f i = .response r ∧ r.status = 429) →
        (runAttempts cfg f p fuel a le).attempts = fuel ∧
        countRateLimit (runAttempts cfg f p fuel a le).events = fuel ∧
        (0 < fuel → ∃ e, (runAttempts cfg f p fuel a le).outcome = .thrown (.zebra e) ∧
          e.statusCode = some 429) := by
  intro fuel
  induction fuel with
  | zero =>
    intro a le _
    refine ⟨?_, ?_, by omega⟩ <;>
      cases le <;> simp [runAttempts, countRateLimit]
  | succ n ih =>
    intro a le hall
    obtain ⟨r, hfa, h429⟩ := hall a (le_refl a) (by omega)
    have hok : r.ok = false := by
      simp [Response.ok, h429]
    have hstep : attemptStep p a (f a) =
        .next [.rateLimit (jsRetryAfter r)]
          (.zebra (ZebraError.fromResponse p "Rate limit exceeded" r).1) := by
      rw [hfa]
      simp [attemptStep, hok, h429]
    have hcode : (ZebraError.fromResponse p "Rate limit exceeded" r).1.statusCode
        = some 429 := by
      simp [ZebraError.fromResponse, h429]
    obtain ⟨iha, ihc, iho⟩ := ih (a + 1)
      (some (.zebra (ZebraError.fromResponse p "Rate limit exceeded" r).1))
      (fun i h1 h2 => hall i (by omega) (by omega))
    refine ⟨?_, ?_, ?_⟩
    · simp only [runAttempts, hstep]
      rw [iha]
    · simp only [runAttempts, hstep]
      rw [countRateLimit_append, countRateLimit_append, countRateLimit_pre, ihc]
      simp [countRateLimit]
      omega
    · intro _
      simp only [runAttempts, hstep]
      cases n with
      | zero =>
        exact ⟨(ZebraError.fromResponse p "Rate limit exceeded" r).1,
          by simp [runAttempts], hcode⟩
      | succ m =>
        exact iho (by omega)

theorem runAttempts_allTransport (cfg : RetryConfig) (f : Nat → FetchOutcome)
    (p : JsonParse) :
    ∀ fuel a le,
      (∀ i, a ≤ i → i < a + fuel → ∃ m, f i = .transportError m) →
        (le = none → 0 < fuel) →
        (∀ e0, le = some e0 → ∃ m0, e0 = .plain m0) →
        ∃ m, (runAttempts cfg f p fuel a le).outcome = .thrown (.plain m) ∧
          (runAttempts cfg f p fuel a le).events.getLast? =
            some (.requestEnd (exhaustResult (.plain m) (a + fuel))) := by
  intro fuel
  induction fuel with
  | zero =>
    intro a le _ hn hs
    cases le with
    | none => exact absurd (hn rfl) (by omega)
    | some e0 =>
      obtain ⟨m0, hm0⟩ := hs e0 rfl
      subst hm0
      exact ⟨m0, by simp [runAttempts], by simp [runAttempts]⟩
  | succ n ih =>
    intro a le hall _ _
    obtain ⟨m, hfa⟩ := hall a (le_refl a) (by omega)
    have hstep : attemptStep p a (f a) = .next [] (.plain m) := by
      rw [hfa]; rfl
    obtain ⟨m', hout, hlast⟩ := ih (a + 1) (some (.plain m))
      (fun i h1 h2 => hall i (by omega) (by omega))
      (by intro h; cases h)
      (by intro e0 he0; exact ⟨m, by injection he0 with h; rw [h]⟩)
    refine ⟨m', ?_, ?_⟩
    · simp only [runAttempts, hstep]
      exact hout
    · simp only [runAttempts, hstep]
      have hne : (runAttempts cfg f p n (a + 1) (some (.plain m))).events ≠ [] := by
        intro hnil
        rw [hnil] at hlast
        simp at hlast
      rw [List.append_nil, List.getLast?_append_of_ne_nil _ hne, hlast]
      have : a + 1 + n = a + (n + 1) := by omega
      rw [this]

/-! ## Claims -/

/-- C1 (counterexample): with every attempt answered by a terminal 404, the
pipeline throws but fires no `onRequestEnd` at all — the claimed
"exactly one end callback, including on every path that throws" is false. -/
theorem C1_counterexample :
    countEnd (ZebraClient.request cfg3 (fetchConst (.response r404W)) parseW).events = 0 ∧
    (ZebraClient.request cfg3 (fetchConst (.response r404W)) parseW).outcome.isThrown
      = true :=
  ⟨rfl, rfl⟩

/-- C1 (amended): every pipeline invocation fires `onRequestStart` exactly
once, before anything else (in particular before the first transport call);
`onRequestEnd` fires once per attempt whose response status is 2xx plus once
more if the attempt budget is exhausted — so it does not fire at all when a
terminal client error is thrown, and can fire more than once when a 2xx
attempt later fails during body handling and is retried. -/
theorem C1_telemetry_callback_counts (cfg : RetryConfig) (fetch : Nat → FetchOutcome)
    (parse : JsonParse) :
    (ZebraClient.request cfg fetch parse).events.head? = some .start ∧
    countStart (ZebraClient.request cfg fetch parse).events = 1 ∧
    countEnd (ZebraClient.request cfg fetch parse).events =
      numOkResponses fetch 0 (ZebraClient.request cfg fetch parse).attempts +
        (if (ZebraClient.request cfg fetch parse).exhausted then 1 else 0) := by
  refine ⟨by simp [ZebraClient.request], ?_, ?_⟩
  · simp only [ZebraClient.request, countStart]
    rw [runAttempts_countStart]
  · simp only [ZebraClient.request, countEnd]
    exact runAttempts_countEnd cfg fetch parse (cfg.maxRetries + 1) 0 none

/-- C2: a first response with a non-429 status in [400, 500) yields exactly
one transport attempt, no retry callback, no backoff sleep, and the pipeline
immediately throws the typed failure constructed from that response, which
carries that status. -/
theorem C2_terminal_client_error (cfg : RetryConfig) (fetch : Nat → FetchOutcome)
    (parse : JsonParse) (r : Response) (hf : fetch 0 = .response r)
    (h400 : 400 ≤ r.status) (h500 : r.status < 500) (h429 : r.status ≠ 429) :
    (ZebraClient.request cfg fetch parse).attempts = 1 ∧
    countRetry (ZebraClient.request cfg fetch parse).events = 0 ∧
    countSleep (ZebraClient.request cfg fetch parse).events = 0 ∧
    (ZebraClient.request cfg fetch parse).outcome =
      .thrown (.zebra
        (ZebraError.fromResponse parse ("Zebra API error: " ++ r.statusText) r).1) ∧
    (ZebraError.fromResponse parse ("Zebra API error: " ++ r.statusText) r).1.statusCode
      = some r.status := by
  have hok : r.ok = false := by
    simp only [Response.ok, Bool.and_eq_false_iff, decide_eq_false_iff_not]
    omega
  have hstep : attemptStep parse 0 (fetch 0) =
      .done [] (.thrown (.zebra
        (ZebraError.fromResponse parse ("Zebra API error: " ++ r.statusText) r).1)) := by
    rw [hf]
    simp [attemptStep, hok, h429, h500]
  refine ⟨?_, ?_, ?_, ?_, ?_⟩ <;>
    simp [ZebraClient.request, runAttempts, hstep, preEvents, countRetry, countSleep,
      ZebraError.fromResponse]

/-- C2 (witness): with the default policy and a transport that always
returns 404, the pipeline makes one attempt, never retries or sleeps, and
throws the typed 404 failure. -/
theorem C2_witness :
    (ZebraClient.request cfg3 (fetchConst (.response r404W)) parseW).attempts = 1 ∧
    countRetry (ZebraClient.request cfg3 (fetchConst (.response r404W)) parseW).events
      = 0 ∧
    (ZebraError.fromResponse parseW ("Zebra API error: " ++ r404W.statusText) r404W).1.statusCode
      = some r404W.status :=
  let h := C2_terminal_client_error cfg3 (fetchConst (.response r404W)) parseW r404W
    rfl (by decide) (by decide) (by decide)
  ⟨h.1, h.2.1, h.2.2.2.2⟩

/-- C3: when every attempt is answered with a 429 response, the pipeline
makes exactly `maxRetries + 1` attempts (so at most that many), fires the
rate-limit callback once per attempt (one per 429 received), and finally
throws a typed failure with status 429. -/
theorem C3_rate_limit_retry_budget (cfg : RetryConfig) (fetch : Nat → FetchOutcome)
    (parse : JsonParse)
    (hall : ∀ i, i ≤ cfg.maxRetries → ∃ r, fetch i = .response r ∧ r.status = 429) :
    (ZebraClient.request cfg fetch parse).attempts = cfg.maxRetries + 1 ∧
    (ZebraClient.request cfg fetch parse).attempts ≤ cfg.maxRetries + 1 ∧
    countRateLimit (ZebraClient.request cfg fetch parse).events =
      (ZebraClient.request cfg fetch parse).attempts ∧
    ∃ e, (ZebraClient.request cfg fetch parse).outcome = .thrown (.zebra e) ∧
      e.statusCode = some 429 := by
  obtain ⟨ha, hc, ho⟩ := runAttempts_all429 cfg fetch parse (cfg.maxRetries + 1) 0 none
    (fun i _ h2 => hall i (by omega))
  refine ⟨?_, ?_, ?_, ?_⟩
  · simpa [ZebraClient.request] using ha
  · simp [ZebraClient.request, ha]
  · simp only [ZebraClient.request, countRateLimit]
    rw [hc, ha]
  · simpa [ZebraClient.request] using ho (by omega)

/-- C3 (witness): one retry allowed, every response 429: two attempts, two
rate-limit callbacks, a thrown 429 typed failure. -/
theorem C3_witness :
    (ZebraClient.request cfg1 (fetchConst (.response r429W)) parseW).attempts = 2 ∧
    countRateLimit (ZebraClient.request cfg1 (fetchConst (.response r429W)) parseW).events
      = (ZebraClient.request cfg1 (fetchConst (.response r429W)) parseW).attempts ∧
    ∃ e, (ZebraClient.request cfg1 (fetchConst (.response r429W)) parseW).outcome
      = .thrown (.zebra e) ∧ e.statusCode = some 429 :=
  let h := C3_rate_limit_retry_budget cfg1 (fetchConst (.response r429W)) parseW
    (fun _ _ => ⟨r429W, rfl, rfl⟩)
  ⟨h.1, h.2.2.1, h.2.2.2⟩

/-- C4: on a first 2xx response, a 204 status or an empty body yields a
`null` payload, and a 200 status with a non-empty body that parses as JSON
yields exactly the decoded value. -/
theorem C4_success_payload (cfg : RetryConfig) (fetch : Nat → FetchOutcome)
    (parse : JsonParse) (r : Response) (hf : fetch 0 = .response r)
    (h2 : 200 ≤ r.status) (h3 : r.status < 300) :
    ((r.status = 204 ∨ r.body = .readOk "") →
      (ZebraClient.request cfg fetch parse).outcome = .ok none) ∧
    (∀ text v, r.status = 200 → r.body = .readOk text → text ≠ "" →
      parse text = .ok v →
      (ZebraClient.request cfg fetch parse).outcome = .ok (some v)) := by
  have hok : r.ok = true := by
    simp only [Response.ok, Bool.and_eq_true, decide_eq_true_eq]
    omega
  constructor
  · intro hcase
    by_cases h204 : r.status = 204
    · have hstep : attemptStep parse 0 (fetch 0) =
          .done [.requestEnd (okResult r 0)] (.ok none) := by
        rw [hf]
        simp [attemptStep, hok, h204]
      simp [ZebraClient.request, runAttempts, hstep]
    · rcases hcase with h | hempty
      · exact absurd h h204
      · have hstep : attemptStep parse 0 (fetch 0) =
            .done [.requestEnd (okResult r 0)] (.ok none) := by
          rw [hf]
          simp [attemptStep, hok, h204, hempty]
        simp [ZebraClient.request, runAttempts, hstep]
  · intro text v h200 hb hne hp
    have h204 : ¬(r.status = 204) := by omega
    have hstep : attemptStep parse 0 (fetch 0) =
        .done [.requestEnd (okResult r 0)] (.ok (some v)) := by
      rw [hf]
      simp [attemptStep, hok, h204, hb, hne, hp]
    simp [ZebraClient.request, runAttempts, hstep]

/-- C4 (witness): a 200 response with body `{"ok":true}` returns the decoded
object. -/
theorem C4_witness :
    (ZebraClient.request cfg3 (fetchConst (.response r200W)) parseW).outcome
      = .ok (some (.obj [("ok", .bool true)])) :=
  (C4_success_payload cfg3 (fetchConst (.response r200W)) parseW r200W rfl
    (by decide) (by decide)).2 "\x7b\"ok\":true\x7d" (.obj [("ok", .bool true)])
    rfl rfl (by decide) rfl

/-- C5: constructing a typed failure from a response reads the body exactly
once, never throws (it is total, returning a `ZebraError` whose status code
is the response's status and whose message is the given one), stores a
valid-JSON body as the parsed value, keeps a non-JSON body as the exact raw
text, and leaves the body unset when the body is empty or unreadable. -/
theorem C5_fromResponse_spec (parse : JsonParse) (msg : String) (r : Response) :
    (ZebraError.fromResponse parse msg r).2 = 1 ∧
    (ZebraError.fromResponse parse msg r).1.statusCode = some r.status ∧
    (ZebraError.fromResponse parse msg r).1.message = msg ∧
    (∀ text v, r.body = .readOk text → text ≠ "" → parse text = .ok v →
      (ZebraError.fromResponse parse msg r).1.responseBody = some (.jsonVal v)) ∧
    (∀ text em, r.body = .readOk text → text ≠ "" → parse text = .error em →
      (ZebraError.fromResponse parse msg r).1.responseBody = some (.textVal text)) ∧
    ((r.body = .readOk "" ∨ (∃ m, r.body = .readFail m)) →
      (ZebraError.fromResponse parse msg r).1.responseBody = none) := by
  refine ⟨rfl, rfl, rfl, ?_, ?_, ?_⟩
  · intro text v hb hne hp
    simp [ZebraError.fromResponse, hb, hne, hp]
  · intro text em hb hne hp
    simp [ZebraError.fromResponse, hb, hne, hp]
  · intro hcase
    rcases hcase with hb | ⟨m, hb⟩ <;> simp [ZebraError.fromResponse, hb]

/-- C5 (witness): from a response whose body is `{"error":"Not Found"}` the
typed failure stores the parsed object. -/
theorem C5_witness :
    (ZebraError.fromResponse parseW "Zebra API error: Not Found" r404W).1.responseBody
      = some (.jsonVal (.obj [("error", .str "Not Found")])) ∧
    (ZebraError.fromResponse parseW "Zebra API error: Not Found" r404W).2 = 1 :=
  let h := C5_fromResponse_spec parseW "Zebra API error: Not Found" r404W
  ⟨h.2.2.2.1 "\x7b\"error\":\"Not Found\"\x7d" (.obj [("error", .str "Not Found")])
    rfl (by decide) rfl, h.1⟩

/-- C6 (counterexample): attempt 0 receives a 429 and attempt 1 succeeds;
the end-telemetry result of the run has `rateLimited = false` even though a
prior attempt received HTTP 429 — the claimed "flag set iff some attempt
received a 429" is false on the success path. -/
theorem C6_counterexample :
    ((endResults (ZebraClient.request cfg1 fetch429then200 parseW).events).map
      (fun res => res.rateLimited)) = [false] ∧
    fetch429then200 0 = .response r429W ∧
    r429W.status = 429 :=
  ⟨rfl, rfl, rfl⟩

/-- C6 (amended): the success-path end result always reports
`rateLimited = false`, even when an earlier attempt received a 429; only the
exhausted-path end result can report `rateLimited = true`, and there the
flag is set iff the last recorded failure is a typed failure whose status
code is 429. -/
theorem C6_rate_limited_flag (cfg : RetryConfig) (fetch : Nat → FetchOutcome)
    (parse : JsonParse) :
    (∀ res, res ∈ endResults (ZebraClient.request cfg fetch parse).events →
      res.success = true → res.rateLimited = false) ∧
    ((ZebraClient.request cfg fetch parse).exhausted = true →
      ∃ e res, (ZebraClient.request cfg fetch parse).outcome = .thrown e ∧
        (ZebraClient.request cfg fetch parse).events.getLast? =
          some (.requestEnd res) ∧
        res.success = false ∧ res.rateLimited = e.is429) := by
  constructor
  · intro res hmem hs
    have hmem' : res ∈ endResults
        (runAttempts cfg fetch parse (cfg.maxRetries + 1) 0 none).events := by
      simpa [ZebraClient.request, endResults] using hmem
    exact runAttempts_success_end cfg fetch parse (cfg.maxRetries + 1) 0 none
      res hmem' hs
  · intro hx
    have hx' : (runAttempts cfg fetch parse (cfg.maxRetries + 1) 0 none).exhausted
        = true := by
      simpa [ZebraClient.request] using hx
    obtain ⟨e, hout, hlast⟩ := runAttempts_exhaust cfg fetch parse
      (cfg.maxRetries + 1) 0 none hx'
    refine ⟨e, exhaustResult e (0 + (cfg.maxRetries + 1)), ?_, ?_, rfl, rfl⟩
    · simpa [ZebraClient.request] using hout
    · have hne : (runAttempts cfg fetch parse (cfg.maxRetries + 1) 0 none).events
          ≠ [] := by
        intro hnil
        rw [hnil] at hlast
        simp at hlast
      simp only [ZebraClient.request]
      calc (TelemetryEvent.start ::
              (runAttempts cfg fetch parse (cfg.maxRetries + 1) 0 none).events).getLast?
          = ([TelemetryEvent.start] ++
              (runAttempts cfg fetch parse (cfg.maxRetries + 1) 0 none).events).getLast? := rfl
        _ = (runAttempts cfg fetch parse (cfg.maxRetries + 1) 0 none).events.getLast? :=
              List.getLast?_append_of_ne_nil _ hne
        _ = some (.requestEnd (exhaustResult e (0 + (cfg.maxRetries + 1)))) := hlast

/-- C6 (witness): in the 429-then-200 run, the success end result carries
`rateLimited = false`. -/
theorem C6_witness : (okResult r200W 1).rateLimited = false :=
  (C6_rate_limited_flag cfg1 fetch429then200 parseW).1 (okResult r200W 1)
    (List.mem_singleton.mpr rfl) rfl

/-- C7: every backoff sleep before retry attempt k carries delay
`min(initialDelayMs * backoffMultiplier^(k-1), maxDelayMs)`; a multiplier of
1 makes the delay the constant `min(initialDelayMs, maxDelayMs)`, and a zero
initial delay (with a nonnegative cap) makes every delay 0. -/
theorem C7_backoff_delay (cfg : RetryConfig) (fetch : Nat → FetchOutcome)
    (parse : JsonParse) :
    (∀ k d, TelemetryEvent.sleep k d ∈ (ZebraClient.request cfg fetch parse).events →
      d = min (cfg.initialDelayMs * cfg.backoffMultiplier ^ (k - 1)) cfg.maxDelayMs) ∧
    (cfg.backoffMultiplier = 1 →
      ∀ k, backoffDelay cfg k = min cfg.initialDelayMs cfg.maxDelayMs) ∧
    (cfg.initialDelayMs = 0 → 0 ≤ cfg.maxDelayMs →
      ∀ k, backoffDelay cfg k = 0) := by
  refine ⟨?_, ?_, ?_⟩
  · intro k d hmem
    have hmem' : TelemetryEvent.sleep k d ∈
        (runAttempts cfg fetch parse (cfg.maxRetries + 1) 0 none).events := by
      simpa [ZebraClient.request] using hmem
    have := runAttempts_sleep_mem cfg fetch parse (cfg.maxRetries + 1) 0 none k d hmem'
    simpa [backoffDelay] using this
  · intro h1 k
    simp [backoffDelay, h1]
  · intro h0 hmax k
    simp only [backoffDelay, h0, zero_mul]
    exact min_eq_left hmax

/-- C7 (witness): with multiplier 1 and initial delay 5 the backoff delay of
the first retry is `min 5 30000`. -/
theorem C7_witness : backoffDelay cfgM1 1 = min (5 : ℚ) 30000 :=
  (C7_backoff_delay cfgM1 (fetchConst (.response r500W)) parseW).2.1 rfl 1

/-- C8 (counterexample): a 429 response whose retry-after header is `"abc"`
makes the pipeline pass `parseInt("abc", 10)` — the JavaScript `NaN`,
modelled `none` — to the rate-limit callback, not the claimed 0. -/
theorem C8_counterexample :
    rateLimitValues
      (ZebraClient.request cfg0 (fetchConst (.response r429W)) parseW).events
      = [none] ∧
    rateLimitValues
      (ZebraClient.request cfg0 (fetchConst (.response r429W)) parseW).events
      ≠ [some 0] ∧
    r429W.retryAfterHeader = some "abc" :=
  ⟨rfl, by decide, rfl⟩

/-- C8 (amended): on a 429 the rate-limit callback receives
`parseInt(retryAfterHeader || '0', 10)`: 0 when the header is absent or
empty, and otherwise the `parseInt` of the header text — which is the
JavaScript `NaN` (not 0) when the text has no leading integer. -/
theorem C8_retry_after_value (cfg : RetryConfig) (fetch : Nat → FetchOutcome)
    (parse : JsonParse) (r : Response) (hf : fetch 0 = .response r)
    (h429 : r.status = 429) :
    (∃ rest, (ZebraClient.request cfg fetch parse).events =
      .start :: .rateLimit (jsRetryAfter r) :: rest) ∧
    ((r.retryAfterHeader = none ∨ r.retryAfterHeader = some "") →
      jsRetryAfter r = some 0) ∧
    (∀ s, r.retryAfterHeader = some s → s ≠ "" → jsRetryAfter r = jsParseInt s) := by
  have hok : r.ok = false := by
    simp only [Response.ok, Bool.and_eq_false_iff, decide_eq_false_iff_not]
    omega
  refine ⟨?_, ?_, ?_⟩
  · have hstep : attemptStep parse 0 (fetch 0) =
        .next [.rateLimit (jsRetryAfter r)]
          (.zebra (ZebraError.fromResponse parse "Rate limit exceeded" r).1) := by
      rw [hf]
      simp [attemptStep, hok, h429]
    exact ⟨(runAttempts cfg fetch parse cfg.maxRetries 1
        (some (.zebra (ZebraError.fromResponse parse "Rate limit exceeded" r).1))).events,
      by simp [ZebraClient.request, runAttempts, hstep, preEvents]⟩
  · intro hcase
    rcases hcase with hh | hh <;> simp [jsRetryAfter, hh] <;> rfl
  · intro s hs hne
    simp [jsRetryAfter, hs, hne]

/-- C8 (witness): a 429 with retry-after header `"7"`: the callback value is
`parseInt("7", 10)`, and that value is 7. -/
theorem C8_witness :
    (∃ rest, (ZebraClient.request cfg0 (fetchConst (.response r429n7W)) parseW).events =
      .start :: .rateLimit (jsRetryAfter r429n7W) :: rest) ∧
    jsRetryAfter r429n7W = jsParseInt "7" :=
  let h := C8_retry_after_value cfg0 (fetchConst (.response r429n7W)) parseW r429n7W
    rfl rfl
  ⟨h.1, h.2.2 "7" rfl (by decide)⟩

/-- C9: when the loop exhausts its budget, the error passed in the final end
result is exactly the thrown error (the last observed failure — nothing new
is synthesized); and when no attempt ever obtained a response, the thrown
error is the wrapped transport error and the final end result reports
status code 0. -/
theorem C9_exhausted_retries (cfg : RetryConfig) (fetch : Nat → FetchOutcome)
    (parse : JsonParse) :
    ((ZebraClient.request cfg fetch parse).exhausted = true →
      ∃ e res, (ZebraClient.request cfg fetch parse).outcome = .thrown e ∧
        (ZebraClient.request cfg fetch parse).events.getLast? =
          some (.requestEnd res) ∧
        res.error = some e) ∧
    ((∀ i, i ≤ cfg.maxRetries → ∃ m, fetch i = .transportError m) →
      ∃ m res, (ZebraClient.request cfg fetch parse).outcome = .thrown (.plain m) ∧
        (ZebraClient.request cfg fetch parse).events.getLast? =
          some (.requestEnd res) ∧
        res.error = some (.plain m) ∧ res.statusCode = 0) := by
  constructor
  · intro hx
    have hx' : (runAttempts cfg fetch parse (cfg.maxRetries + 1) 0 none).exhausted
        = true := by
      simpa [ZebraClient.request] using hx
    obtain ⟨e, hout, hlast⟩ := runAttempts_exhaust cfg fetch parse
      (cfg.maxRetries + 1) 0 none hx'
    have hne : (runAttempts cfg fetch parse (cfg.maxRetries + 1) 0 none).events
        ≠ [] := by
      intro hnil
      rw [hnil] at hlast
      simp at hlast
    refine ⟨e, exhaustResult e (0 + (cfg.maxRetries + 1)), ?_, ?_, rfl⟩
    · simpa [ZebraClient.request] using hout
    · simp only [ZebraClient.request]
      calc (TelemetryEvent.start ::
              (runAttempts cfg fetch parse (cfg.maxRetries + 1) 0 none).events).getLast?
          = ([TelemetryEvent.start] ++
              (runAttempts cfg fetch parse (cfg.maxRetries + 1) 0 none).events).getLast? :=
            rfl
        _ = (runAttempts cfg fetch parse (cfg.maxRetries + 1) 0 none).events.getLast? :=
            List.getLast?_append_of_ne_nil _ hne
        _ = some (.requestEnd (exhaustResult e (0 + (cfg.maxRetries + 1)))) := hlast
  · intro hall
    obtain ⟨m, hout, hlast⟩ := runAttempts_allTransport cfg fetch parse
      (cfg.maxRetries + 1) 0 none
      (fun i _ h2 => hall i (by omega))
      (fun _ => by omega)
      (fun e0 he0 => by cases he0)
    have hne : (runAttempts cfg fetch parse (cfg.maxRetries + 1) 0 none).events
        ≠ [] := by
      intro hnil
      rw [hnil] at hlast
      simp at hlast
    refine ⟨m, exhaustResult (.plain m) (0 + (cfg.maxRetries + 1)), ?_, ?_, rfl, rfl⟩
    · simpa [ZebraClient.request] using hout
    · simp only [ZebraClient.request]
      calc (TelemetryEvent.start ::
              (runAttempts cfg fetch parse (cfg.maxRetries + 1) 0 none).events).getLast?
          = ([TelemetryEvent.start] ++
              (runAttempts cfg fetch parse (cfg.maxRetries + 1) 0 none).events).getLast? :=
            rfl
        _ = (runAttempts cfg fetch parse (cfg.maxRetries + 1) 0 none).events.getLast? :=
            List.getLast?_append_of_ne_nil _ hne
        _ = some (.requestEnd (exhaustResult (.plain m) (0 + (cfg.maxRetries + 1)))) :=
            hlast

/-- C9 (witness): a transport that always throws: the pipeline throws the
wrapped transport error and the final end result carries it with status
code 0. -/
theorem C9_witness :
    ∃ m res, (ZebraClient.request cfg1 (fetchConst (.transportError "fetch failed"))
        parseW).outcome = .thrown (.plain m) ∧
      (ZebraClient.request cfg1 (fetchConst (.transportError "fetch failed"))
        parseW).events.getLast? = some (.requestEnd res) ∧
      res.error = some (.plain m) ∧ res.statusCode = 0 :=
  (C9_exhausted_retries cfg1 (fetchConst (.transportError "fetch failed")) parseW).2
    (fun _ _ => ⟨"fetch failed", rfl⟩)

/-- C10: a first 2xx (non-204) response whose non-empty body fails to parse
as JSON has already fired the success `onRequestEnd` for that attempt; the
parse exception is caught, recorded as a retryable plain failure, and the
run continues exactly as the attempt loop restarted at attempt 1 with that
failure — including a retry callback and backoff sleep when budget
remains. -/
theorem C10_parse_failure_is_retryable (cfg : RetryConfig)
    (fetch : Nat → FetchOutcome) (parse : JsonParse) (r : Response)
    (text emsg : String) (hf : fetch 0 = .response r)
    (h2 : 200 ≤ r.status) (h3 : r.status < 300) (h204 : r.status ≠ 204)
    (hb : r.body = .readOk text) (hne : text ≠ "")
    (hp : parse text = .error emsg) :
    (ZebraClient.request cfg fetch parse).events =
      .start :: .requestEnd (okResult r 0) ::
        (runAttempts cfg fetch parse cfg.maxRetries 1 (some (.plain emsg))).events ∧
    (okResult r 0).success = true ∧
    (ZebraClient.request cfg fetch parse).outcome =
      (runAttempts cfg fetch parse cfg.maxRetries 1 (some (.plain emsg))).outcome ∧
    (ZebraClient.request cfg fetch parse).attempts =
      (runAttempts cfg fetch parse cfg.maxRetries 1 (some (.plain emsg))).attempts + 1 ∧
    (0 < cfg.maxRetries → ∃ tl,
      (runAttempts cfg fetch parse cfg.maxRetries 1 (some (.plain emsg))).events =
        .retry 1 (jsErrorReason (some (.plain emsg))) ::
          .sleep 1 (backoffDelay cfg 1) :: tl) := by
  have hok : r.ok = true := by
    simp only [Response.ok, Bool.and_eq_true, decide_eq_true_eq]
    omega
  have hstep : attemptStep parse 0 (fetch 0) =
      .next [.requestEnd (okResult r 0)] (.plain emsg) := by
    rw [hf]
    simp [attemptStep, hok, h204, hb, hne, hp]
  refine ⟨?_, rfl, ?_, ?_, ?_⟩
  · simp [ZebraClient.request, runAttempts, hstep, preEvents]
  · simp [ZebraClient.request, runAttempts, hstep]
  · simp [ZebraClient.request, runAttempts, hstep]
  · intro hpos
    rcases hn : cfg.maxRetries with _ | n
    · omega
    · cases hstep2 : attemptStep parse 1 (fetch 1) with
      | done evs out =>
        exact ⟨evs, by simp [runAttempts, hstep2, preEvents]⟩
      | next evs e =>
        exact ⟨evs ++ (runAttempts cfg fetch parse n 2 (some e)).events,
          by simp [runAttempts, hstep2, preEvents]⟩

/-- C10 (witness): a 200 response with body `"oops"` (not JSON): the success
end fires, then with one retry allowed the run continues with a retry
callback for attempt 1. -/
theorem C10_witness :
    (ZebraClient.request cfg1 (fetchConst (.response rBadW)) parseW).events =
      .start :: .requestEnd (okResult rBadW 0) ::
        (runAttempts cfg1 (fetchConst (.response rBadW)) parseW cfg1.maxRetries 1
          (some (.plain "Unexpected token"))).events ∧
    (∃ tl, (runAttempts cfg1 (fetchConst (.response rBadW)) parseW cfg1.maxRetries 1
        (some (.plain "Unexpected token"))).events =
      .retry 1 (jsErrorReason (some (.plain "Unexpected token"))) ::
        .sleep 1 (backoffDelay cfg1 1) :: tl) :=
  let h := C10_parse_failure_is_retryable cfg1 (fetchConst (.response rBadW)) parseW
    rBadW "oops" "Unexpected token" rfl (by decide) (by decide) (by decide) rfl
    (by decide) rfl
  ⟨h.1, h.2.2.2.2 (by decide)⟩
